import Mathlib

/-!
Verification of the indexing and comparison engine of `stoker/index.py`
(the final, complete variant of the repository's index module).

The embedding models a frozen filesystem snapshot: every `FilesystemObject`
records, for one path, the outcome of the OS calls the Python code performs
(`os.lstat`, `os.readlink`, `open(...).read`).  `os.path.lexists`,
`os.path.islink`, `os.path.isfile` and `os.path.isdir` are themselves
implemented on top of (l)stat, so under a frozen snapshot they are derived
from the recorded lstat result exactly as the C library derives them from
the mode word.  The current process identity (`os.getuid`, `os.getgroups`)
and the user-database lookup (`pwd.getpwuid`) are passed as explicit
parameters, and the MD5 digest is an explicit function parameter
`List Nat → String` (bytes to hex string); no claim depends on any property
of the digest beyond it being a function.
-/

namespace Stoker

/-- `stat` module constants used by `index.py` (octal, as in POSIX). -/
def S_IRUSR : Nat := 0o400

def S_IRGRP : Nat := 0o40

def S_IROTH : Nat := 0o4

def S_IFMT : Nat := 0o170000

def S_IFREG : Nat := 0o100000

def S_IFDIR : Nat := 0o40000

def S_IFLNK : Nat := 0o120000

def S_ISREG (m : Nat) : Bool := m &&& S_IFMT == S_IFREG

def S_ISDIR (m : Nat) : Bool := m &&& S_IFMT == S_IFDIR

def S_ISLNK (m : Nat) : Bool := m &&& S_IFMT == S_IFLNK

/-- File types, from class `FilesystemObjectType` (FILE=0, DIRECTORY=1,
SYMLINK=2, MISSING=3, UNKNOWN=4). -/
inductive FilesystemObjectType where
  | FILE
  | DIRECTORY
  | SYMLINK
  | MISSING
  | UNKNOWN
deriving DecidableEq, Repr

/-- The fields of a successful `os.lstat` result that `index.py` reads
through `FilesystemObjectStat.get` (`st_mtime`, `st_size`, `st_uid`,
`st_gid`, `st_mode`). -/
structure StatInfo where
  mtime : Int
  size : Int
  uid : Nat
  gid : Nat
  mode : Nat
deriving DecidableEq, Repr

/-- Snapshot of one filesystem path, mirroring class `FilesystemObject`:
`path` is the stored (absolute) path string, `st` the result of the
`os.lstat` call made in the constructor (`none` = `OSError`, the object is
missing), `readlink0` the outcome of `os.readlink` on the path (`none` =
raises, i.e. the path is not a symlink), and `openRead` the outcome of
`open(path,"rb")` followed by reading all bytes (`none` = `open`/read
raises, e.g. for a directory or an unreadable file; for a symlink this
follows the link, as `open` does). -/
structure FilesystemObject where
  path : String
  st : Option StatInfo
  readlink0 : Option String
  openRead : Option (List Nat)
deriving DecidableEq, Repr

/-- `FilesystemObject.exists` (a Lean keyword, hence `lexists` — the code
computes it via `os.path.lexists`, which is exactly "the lstat succeeded"
under a frozen snapshot). -/
def FilesystemObject.lexists (o : FilesystemObject) : Bool := o.st.isSome

/-- `FilesystemObject.timestamp` = `stat.get("mtime")` (None if no stat). -/
def FilesystemObject.timestamp (o : FilesystemObject) : Option Int :=
  o.st.map (fun s => s.mtime)

/-- `FilesystemObject.size` = `stat.get("size")`. -/
def FilesystemObject.size (o : FilesystemObject) : Option Int :=
  o.st.map (fun s => s.size)

/-- `FilesystemObject.uid` = `stat.get("uid")`. -/
def FilesystemObject.uid (o : FilesystemObject) : Option Nat :=
  o.st.map (fun s => s.uid)

/-- `FilesystemObject.gid` = `stat.get("gid")`. -/
def FilesystemObject.gid (o : FilesystemObject) : Option Nat :=
  o.st.map (fun s => s.gid)

/-- `FilesystemObject.islink` = `os.path.islink(path)` = lstat succeeded and
the mode word has the symlink file type. -/
def FilesystemObject.islink (o : FilesystemObject) : Bool :=
  match o.st with
  | some s => S_ISLNK s.mode
  | none => false

/-- `FilesystemObject.isfile`: `if not self.islink: return os.path.isfile(path)`
`else: return False`.  In the non-link branch `os.path.isfile` stats the path
(equal to the lstat for a non-link) and tests `S_ISREG`. -/
def FilesystemObject.isfile (o : FilesystemObject) : Bool :=
  if !o.islink then
    match o.st with
    | some s => S_ISREG s.mode
    | none => false
  else false

/-- `FilesystemObject.isdir`: same shape as `isfile` with `S_ISDIR`. -/
def FilesystemObject.isdir (o : FilesystemObject) : Bool :=
  if !o.islink then
    match o.st with
    | some s => S_ISDIR s.mode
    | none => false
  else false

/-- `FilesystemObject.type`: MISSING if not exists, else FILE / DIRECTORY /
SYMLINK / UNKNOWN in the code's test order. -/
def FilesystemObject.type (o : FilesystemObject) : FilesystemObjectType :=
  if !o.lexists then FilesystemObjectType.MISSING
  else if o.isfile then FilesystemObjectType.FILE
  else if o.isdir then FilesystemObjectType.DIRECTORY
  else if o.islink then FilesystemObjectType.SYMLINK
  else FilesystemObjectType.UNKNOWN

/-- `FilesystemObject.raw_symlink_target`: `os.readlink(path)` if the object
exists (raising `OSError` when the path is not a symlink, modelled as
`Except.error ()`), `None` otherwise. -/
def FilesystemObject.raw_symlink_target (o : FilesystemObject) :
    Except Unit (Option String) :=
  if o.lexists then
    match o.readlink0 with
    | some t => Except.ok (some t)
    | none => Except.error ()
  else Except.ok none

/-- `FilesystemObject.isaccessible`: POSIX read-permission resolution.
`if not exists: False`; owner check first (`uid == os.getuid()` tests
`S_IRUSR`), then group (`gid in os.getgroups()` tests `S_IRGRP`), else
`S_IROTH`.  Under the snapshot model `exists` is `st.isSome`, so the
missing case and the no-stat case coincide. -/
def FilesystemObject.isaccessible (procUid : Nat) (procGroups : List Nat)
    (o : FilesystemObject) : Bool :=
  match o.st with
  | none => false
  | some s =>
    if s.uid = procUid then s.mode &&& S_IRUSR != 0
    else if s.gid ∈ procGroups then s.mode &&& S_IRGRP != 0
    else s.mode &&& S_IROTH != 0

/-- `FilesystemObject.md5sum`: `None` when the object does not exist;
otherwise the path is opened (`open(path,"rb")`, which follows symlinks and
raises for directories and unreadable files — modelled by `openRead = none`)
and the whole content is fed through the digest. -/
def FilesystemObject.md5sum (md5 : List Nat → String) (o : FilesystemObject) :
    Except Unit (Option String) :=
  if !o.lexists then Except.ok none
  else
    match o.openRead with
    | some bs => Except.ok (some (md5 bs))
    | none => Except.error ()

/-- Python's `str.split(sep)` for a single-character separator, on the
character list of the string.  `[] ↦ [[]]` matches `"".split('.') == ['']`. -/
def splitCh (sep : Char) : List Char → List (List Char)
  | [] => [[]]
  | c :: cs =>
    if c = sep then [] :: splitCh sep cs
    else
      match splitCh sep cs with
      | [] => [[c]]
      | g :: gs => (c :: g) :: gs

/-- Python's `'.'.join(groups)` on character lists. -/
def joinDots : List (List Char) → List Char
  | [] => []
  | [g] => g
  | g :: h :: t => g ++ '.' :: joinDots (h :: t)

/-- `os.path.basename(path)`: the last `/`-separated component. -/
def basenameL (p : List Char) : List Char := (splitCh '/' p).getLastD []

/-- `FilesystemObject.extension` on the raw path characters:
`'.'.join(os.path.basename(path).split('.')[1:])`. -/
def extensionL (p : List Char) : List Char :=
  joinDots (splitCh '.' (basenameL p)).tail

/-- `FilesystemObject.iscompressed` on the raw path characters:
`path.split('.')[-1] in ('gz','bz2')` (note: the full path, not the
basename). -/
def iscompressedL (p : List Char) : Bool :=
  (splitCh '.' p).getLastD [] = ['g', 'z'] ∨
    (splitCh '.' p).getLastD [] = ['b', 'z', '2']

/-- `FilesystemObject.type_extension` on the raw path characters:
if compressed, `extension.split('.')[-2]` with `IndexError` mapped to `""`;
else `extension.split('.')[-1]` (the split list is never empty, so `[-1]`
never raises). -/
def type_extensionL (p : List Char) : List Char :=
  if iscompressedL p then
    let l := splitCh '.' (extensionL p)
    if 2 ≤ l.length then l.getD (l.length - 2) [] else []
  else (splitCh '.' (extensionL p)).getLastD []

/-- `FilesystemObject.extension` as a string-valued property. -/
def FilesystemObject.extension (o : FilesystemObject) : String :=
  String.mk (extensionL o.path.toList)

/-- `FilesystemObject.iscompressed`. -/
def FilesystemObject.iscompressed (o : FilesystemObject) : Bool :=
  iscompressedL o.path.toList

/-- `type_extension` as a function of the path string. -/
def typeExtensionS (p : String) : String := String.mk (type_extensionL p.toList)

/-- `FilesystemObject.type_extension`. -/
def FilesystemObject.type_extension (o : FilesystemObject) : String :=
  typeExtensionS o.path

/-- `FilesystemObject.ishidden`: some `os.sep`-separated component of the
stored path starts with `'.'` (`"".startswith('.')` is false, matching the
empty-component case). -/
def FilesystemObject.ishidden (o : FilesystemObject) : Bool :=
  (splitCh '/' o.path.toList).any (fun comp =>
    match comp with
    | c :: _ => c = '.'
    | [] => false)

/-- `FilesystemObject.username`: `None` if no uid; otherwise the name from
the user database (`pwd.getpwuid`), falling back to the raw numeric id when
the lookup fails.  The database is the explicit parameter `resolveUser`. -/
def FilesystemObject.username (resolveUser : Nat → Option String)
    (o : FilesystemObject) : Option (String ⊕ Nat) :=
  match o.uid with
  | none => none
  | some u =>
    match resolveUser u with
    | some nm => some (Sum.inl nm)
    | none => some (Sum.inr u)

/-- `FilesystemObjectIndex`: the `_names` list (insertion order of
`_add_object`) and the `_objects` mapping.  `_add_object` keeps the dict and
the list in lockstep, so the mapping is modelled as a total function on
names; `__contains__` tests membership in `_names`, exactly as in the code. -/
structure FilesystemObjectIndex where
  names : List String
  obj : String → FilesystemObject

/-- Lexicographic (code-point) order on strings, as Python's `sorted` uses. -/
def charListLe : List Char → List Char → Bool
  | [], _ => true
  | _ :: _, [] => false
  | a :: as, b :: bs =>
    if a.toNat < b.toNat then true
    else if a.toNat = b.toNat then charListLe as bs
    else false

def strLe (a b : String) : Bool := charListLe a.toList b.toList

def insertSorted (x : String) : List String → List String
  | [] => [x]
  | y :: ys => if strLe x y then x :: y :: ys else y :: insertSorted x ys

/-- Python's `sorted` on a list of strings (insertion sort; only the
specification — a sorted permutation — matters). -/
def ssort : List String → List String
  | [] => []
  | x :: xs => insertSorted x (ssort xs)

/-- Python's `set.add`. -/
def setAdd (n : String) (l : List String) : List String :=
  if n ∈ l then l else n :: l

/-- The nine output lists of `compare`, namedtuple
`FilesystemObjectIndexComparison`. -/
structure FilesystemObjectIndexComparison where
  missing : List String
  extra : List String
  restricted_source : List String
  restricted_target : List String
  changed_type : List String
  changed_size : List String
  changed_md5 : List String
  changed_link : List String
  changed_time : List String
deriving DecidableEq, Repr

/-- The mutable category sets while `compare` runs. -/
structure CompAcc where
  missing : List String
  extra : List String
  restricted_src : List String
  restricted_tgt : List String
  changed_type : List String
  changed_size : List String
  changed_md5 : List String
  changed_link : List String
  changed_time : List String
deriving DecidableEq, Repr

def emptyAcc : CompAcc := ⟨[], [], [], [], [], [], [], [], []⟩

/-- The type-specific block of `compare`'s source loop (the
`if src_obj.type == FILE ... elif ... == SYMLINK ...` part, entered when
both sides are accessible and of equal type).  `md5sum` and
`raw_symlink_target` can raise, which propagates out of `compare`. -/
def typeCheck (md5 : List Nat → String) (src_obj tgt_obj : FilesystemObject)
    (acc : CompAcc) (name : String) : Except Unit CompAcc :=
  if src_obj.type = FilesystemObjectType.FILE then
    let acc1 :=
      if src_obj.size ≠ tgt_obj.size then
        { acc with changed_size := setAdd name acc.changed_size }
      else acc
    match src_obj.md5sum md5, tgt_obj.md5sum md5 with
    | Except.ok s, Except.ok t =>
      Except.ok (if s ≠ t then
        { acc1 with changed_md5 := setAdd name acc1.changed_md5 }
      else acc1)
    | Except.error e, _ => Except.error e
    | _, Except.error e => Except.error e
  else if src_obj.type = FilesystemObjectType.SYMLINK then
    match src_obj.raw_symlink_target, tgt_obj.raw_symlink_target with
    | Except.ok s, Except.ok t =>
      Except.ok (if s ≠ t then
        { acc with changed_link := setAdd name acc.changed_link }
      else acc)
    | Except.error e, _ => Except.error e
    | _, Except.error e => Except.error e
  else Except.ok acc

/-- The part of a source-loop iteration after the `restricted_src` update:
the `if name not in tgt ... else ...` block. -/
def compareSrcStepRest (procUid : Nat) (procGroups : List Nat)
    (md5 : List Nat → String) (src tgt : FilesystemObjectIndex)
    (acc1 : CompAcc) (name : String) : Except Unit CompAcc :=
  let src_obj := src.obj name
  if name ∈ tgt.names then
    let tgt_obj := tgt.obj name
    if !(tgt_obj.isaccessible procUid procGroups) then
      Except.ok { acc1 with restricted_tgt := setAdd name acc1.restricted_tgt }
    else if src_obj.type ≠ tgt_obj.type then
      Except.ok { acc1 with changed_type := setAdd name acc1.changed_type }
    else
      match typeCheck md5 src_obj tgt_obj acc1 name with
      | Except.ok acc2 =>
        Except.ok (if src_obj.timestamp ≠ tgt_obj.timestamp then
          { acc2 with changed_time := setAdd name acc2.changed_time }
        else acc2)
      | Except.error e => Except.error e
  else Except.ok { acc1 with missing := setAdd name acc1.missing }

/-- The `if not src_obj.isaccessible: restricted_src.add(name)` statement at
the top of a source-loop iteration. -/
def addRestrictedSrc (procUid : Nat) (procGroups : List Nat)
    (src : FilesystemObjectIndex) (acc : CompAcc) (name : String) : CompAcc :=
  if !((src.obj name).isaccessible procUid procGroups) then
    { acc with restricted_src := setAdd name acc.restricted_src }
  else acc

/-- One iteration of `compare`'s first loop (`for name in src.names`):
the `restricted_src` check, then the rest. -/
def compareSrcStep (procUid : Nat) (procGroups : List Nat)
    (md5 : List Nat → String) (src tgt : FilesystemObjectIndex)
    (acc : CompAcc) (name : String) : Except Unit CompAcc :=
  compareSrcStepRest procUid procGroups md5 src tgt
    (addRestrictedSrc procUid procGroups src acc name) name

/-- `compare`'s first loop. -/
def srcLoop (procUid : Nat) (procGroups : List Nat)
    (md5 : List Nat → String) (src tgt : FilesystemObjectIndex)
    (acc : CompAcc) : List String → Except Unit CompAcc
  | [] => Except.ok acc
  | n :: rest =>
    match compareSrcStep procUid procGroups md5 src tgt acc n with
    | Except.ok acc1 => srcLoop procUid procGroups md5 src tgt acc1 rest
    | Except.error e => Except.error e

/-- One iteration of `compare`'s second loop (`for name in tgt.names`):
`extra` for target-only names, and `restricted_tgt` for every inaccessible
target object. -/
def compareExtraStep (procUid : Nat) (procGroups : List Nat)
    (src tgt : FilesystemObjectIndex) (acc : CompAcc) (name : String) :
    CompAcc :=
  let acc1 :=
    if name ∉ src.names then { acc with extra := setAdd name acc.extra }
    else acc
  let tgt_obj := tgt.obj name
  if !(tgt_obj.isaccessible procUid procGroups) then
    { acc1 with restricted_tgt := setAdd name acc1.restricted_tgt }
  else acc1

/-- `compare`'s second loop. -/
def extraLoop (procUid : Nat) (procGroups : List Nat)
    (src tgt : FilesystemObjectIndex) (acc : CompAcc) : List String → CompAcc
  | [] => acc
  | n :: rest =>
    extraLoop procUid procGroups src tgt
      (compareExtraStep procUid procGroups src tgt acc n) rest

/-- `compare(src,tgt)`: the two loops, then each category set sorted.  An
exception raised by `md5sum`/`raw_symlink_target` inside the first loop
propagates (`Except.error`). -/
def compare (procUid : Nat) (procGroups : List Nat)
    (md5 : List Nat → String) (src tgt : FilesystemObjectIndex) :
    Except Unit FilesystemObjectIndexComparison :=
  match srcLoop procUid procGroups md5 src tgt emptyAcc src.names with
  | Except.error e => Except.error e
  | Except.ok acc0 =>
    let acc := extraLoop procUid procGroups src tgt acc0 tgt.names
    Except.ok
      { missing := ssort acc.missing
        extra := ssort acc.extra
        restricted_source := ssort acc.restricted_src
        restricted_target := ssort acc.restricted_tgt
        changed_type := ssort acc.changed_type
        changed_size := ssort acc.changed_size
        changed_md5 := ssort acc.changed_md5
        changed_link := ssort acc.changed_link
        changed_time := ssort acc.changed_time }

/-- `check_accessibility`'s loop: append each name whose object is not
accessible (the `except AttributeError` branch is unreachable in the
snapshot model since `isaccessible` is total). -/
def checkAccLoop (procUid : Nat) (procGroups : List Nat)
    (indx : FilesystemObjectIndex) : List String → List String
  | [] => []
  | n :: rest =>
    if (indx.obj n).isaccessible procUid procGroups then
      checkAccLoop procUid procGroups indx rest
    else n :: checkAccLoop procUid procGroups indx rest

/-- `check_accessibility(indx)`. -/
def check_accessibility (procUid : Nat) (procGroups : List Nat)
    (indx : FilesystemObjectIndex) : List String :=
  checkAccLoop procUid procGroups indx indx.names

/-- Python's `x.strip('.')`: drop leading and trailing dots. -/
def stripDots (s : String) : String :=
  String.mk (((s.toList.dropWhile (fun c => c = '.')).reverse.dropWhile
    (fun c => c = '.')).reverse)

/-- Python's `s.split(',')` on strings. -/
def splitComma (s : String) : List String :=
  (splitCh ',' s.toList).map String.mk

/-- The `users` filter predicate: `indx[x].username in users` (the numeric
fallback and the missing case never equal a string from the list). -/
def usernameIn (resolveUser : Nat → Option String) (o : FilesystemObject)
    (ul : List String) : Bool :=
  match o.username resolveUser with
  | some (Sum.inl nm) => nm ∈ ul
  | some (Sum.inr _) => false
  | none => false

/-- The `size` filter predicate: `indx[x].isfile and indx[x].size >= size`
(the `none` size case is unreachable when `isfile`). -/
def sizeGe (o : FilesystemObject) (sz : Int) : Bool :=
  match o.size with
  | some s => sz ≤ s
  | none => false

/-- `find(indx, exts, users, size, only_hidden, nosymlinks, nocompressed)`:
the empty-guard when no positive filter is set, then the extension pass
(append a name once as soon as one extension matches its type-extension),
then the successive filters, then `sorted`. -/
def find (resolveUser : Nat → Option String) (indx : FilesystemObjectIndex)
    (exts users : Option String) (size : Option Int)
    (only_hidden nosymlinks nocompressed : Bool) : List String :=
  if exts = none ∧ users = none ∧ size = none ∧ only_hidden = false then []
  else
    let ms :=
      match exts with
      | some es =>
        let el := (splitComma es).map stripDots
        indx.names.filter (fun nm => el.contains (indx.obj nm).type_extension)
      | none => indx.names
    let ms :=
      match users with
      | some us =>
        let ul := splitComma us
        ms.filter (fun nm => usernameIn resolveUser (indx.obj nm) ul)
      | none => ms
    let ms :=
      match size with
      | some sz =>
        ms.filter (fun nm => (indx.obj nm).isfile && sizeGe (indx.obj nm) sz)
      | none => ms
    let ms :=
      if only_hidden then ms.filter (fun nm => (indx.obj nm).ishidden)
      else ms
    let ms :=
      if nosymlinks then ms.filter (fun nm => !(indx.obj nm).islink)
      else ms
    let ms :=
      if nocompressed then ms.filter (fun nm => !(indx.obj nm).iscompressed)
      else ms
    ssort ms

/-! ### Concrete objects used by witnesses and counterexamples -/

/-- Digest stand-in used by the concrete witnesses (any function works). -/
def mdW : List Nat → String :=
  fun bs => String.mk (bs.map (fun b => Char.ofNat (48 + b % 10)))

def objW1 : FilesystemObject :=
  ⟨"/t/a", some ⟨100, 4, 1000, 1000, 0o100644⟩, none, some [1, 2]⟩

def objW2 : FilesystemObject :=
  ⟨"/t/a", some ⟨200, 7, 1000, 1000, 0o100644⟩, none, some [9]⟩

def idxW1 : FilesystemObjectIndex := ⟨["a"], fun _ => objW1⟩

def idxW2 : FilesystemObjectIndex := ⟨["a"], fun _ => objW2⟩

def resW12 : FilesystemObjectIndexComparison :=
  ⟨[], [], [], [], [], ["a"], ["a"], [], ["a"]⟩

def objW3 : FilesystemObject :=
  ⟨"/t/b", some ⟨50, 1, 7, 7, 0o100600⟩, none, some [3]⟩

def idxW3 : FilesystemObjectIndex := ⟨["a", "b"],
  fun nm => if nm = "a" then objW2 else objW3⟩

def resW13 : FilesystemObjectIndexComparison :=
  ⟨[], ["b"], [], ["b"], [], ["a"], ["a"], [], ["a"]⟩

def objC3 : FilesystemObject :=
  ⟨"/t/f", some ⟨100, 4, 1001, 1001, 0o100000⟩, none, some [1, 2]⟩

def idxC3 : FilesystemObjectIndex := ⟨["f"], fun _ => objC3⟩

def objC4 : FilesystemObject :=
  ⟨"/t/d", some ⟨10, 4096, 1000, 1000, 0o40755⟩, none, none⟩

def objC4miss : FilesystemObject := ⟨"/t/gone", none, none, none⟩

def objC6a : FilesystemObject :=
  ⟨"/t/own400", some ⟨0, 1, 1000, 1000, 0o100400⟩, none, some []⟩

def objC6b : FilesystemObject :=
  ⟨"/t/own040", some ⟨0, 1, 1000, 1000, 0o100040⟩, none, none⟩

def objC6c : FilesystemObject :=
  ⟨"/t/oth004", some ⟨0, 1, 7, 7, 0o100004⟩, none, some []⟩

def objC7lnk : FilesystemObject :=
  ⟨"/t/lnk", some ⟨0, 1, 1000, 1000, 0o120777⟩, some "a.txt", some [1]⟩

def objC5 : FilesystemObject :=
  ⟨"/t/x", some ⟨0, 1, 7, 7, 0o100000⟩, none, none⟩

def idxC5 : FilesystemObjectIndex := ⟨["b", "a"], fun _ => objC5⟩

def objC10 : FilesystemObject :=
  ⟨"/t/a.txt", some ⟨0, 1, 1000, 1000, 0o100644⟩, none, some []⟩

def idxC10 : FilesystemObjectIndex := ⟨["a.txt"], fun _ => objC10⟩

def ruW : Nat → Option String := fun _ => none

/-! ### Helper lemmas on the set/sort primitives -/

theorem mem_setAdd (n m : String) (l : List String) :
    n ∈ setAdd m l ↔ n = m ∨ n ∈ l := by
  unfold setAdd
  split
  · constructor
    · exact fun h => Or.inr h
    · rintro (rfl | h)
      · assumption
      · assumption
  · simp

theorem mem_insertSorted (n x : String) (l : List String) :
    n ∈ insertSorted x l ↔ n = x ∨ n ∈ l := by
  induction l with
  | nil => simp [insertSorted]
  | cons y ys ih =>
    unfold insertSorted
    split
    · simp
    · simp only [List.mem_cons, ih]
      tauto

theorem mem_ssort (n : String) (l : List String) : n ∈ ssort l ↔ n ∈ l := by
  induction l with
  | nil => simp [ssort]
  | cons x xs ih =>
    unfold ssort
    rw [mem_insertSorted]
    simp [ih]

theorem ssort_nil_iff (l : List String) : ssort l = [] ↔ l = [] := by
  cases l with
  | nil => simp [ssort]
  | cons x xs =>
    simp only [ssort]
    constructor
    · intro h
      have : x ∈ insertSorted x (ssort xs) := (mem_insertSorted x x _).mpr (Or.inl rfl)
      rw [h] at this
      cases this
    · intro h
      cases h

theorem count_insertSorted (n x : String) (l : List String) :
    (insertSorted x l).count n = (x :: l).count n := by
  induction l with
  | nil => simp [insertSorted]
  | cons y ys ih =>
    unfold insertSorted
    split
    · rfl
    · rw [List.count_cons, List.count_cons, ih, List.count_cons, List.count_cons]
      omega

theorem count_ssort (n : String) (l : List String) :
    (ssort l).count n = l.count n := by
  induction l with
  | nil => rfl
  | cons x xs ih =>
    unfold ssort
    rw [count_insertSorted, List.count_cons, List.count_cons, ih]

/-! ### Characterization of the `compare` loops -/

theorem typeCheck_char (md5 : List Nat → String)
    (so tgo : FilesystemObject) (acc acc' : CompAcc) (m : String)
    (h : typeCheck md5 so tgo acc m = Except.ok acc') (n : String) :
    (n ∈ acc'.changed_size ↔ n ∈ acc.changed_size ∨
      (n = m ∧ so.type = FilesystemObjectType.FILE ∧ so.size ≠ tgo.size)) ∧
    (n ∈ acc'.changed_md5 ↔ n ∈ acc.changed_md5 ∨
      (n = m ∧ so.type = FilesystemObjectType.FILE ∧
        so.md5sum md5 ≠ tgo.md5sum md5)) ∧
    (n ∈ acc'.changed_link ↔ n ∈ acc.changed_link ∨
      (n = m ∧ so.type = FilesystemObjectType.SYMLINK ∧
        so.raw_symlink_target ≠ tgo.raw_symlink_target)) ∧
    acc'.missing = acc.missing ∧ acc'.extra = acc.extra ∧
    acc'.restricted_src = acc.restricted_src ∧
    acc'.restricted_tgt = acc.restricted_tgt ∧
    acc'.changed_type = acc.changed_type ∧
    acc'.changed_time = acc.changed_time := by
  by_cases hf : so.type = FilesystemObjectType.FILE
  · simp only [typeCheck, if_pos hf] at h
    cases hms : so.md5sum md5 with
    | error e =>
      cases hmt : tgo.md5sum md5 <;> simp only [hms, hmt] at h <;> cases h
    | ok s =>
      cases hmt : tgo.md5sum md5 with
      | error e => simp only [hms, hmt] at h; cases h
      | ok t =>
        simp only [hms, hmt, Except.ok.injEq] at h
        subst h
        by_cases hsz : so.size = tgo.size <;>
          by_cases hst : s = t <;>
            simp_all [mem_setAdd, hf] <;> tauto
  · by_cases hl : so.type = FilesystemObjectType.SYMLINK
    · simp only [typeCheck, if_neg hf, if_pos hl] at h
      cases hrs : so.raw_symlink_target with
      | error e =>
        cases hrt : tgo.raw_symlink_target <;> simp only [hrs, hrt] at h <;> cases h
      | ok s =>
        cases hrt : tgo.raw_symlink_target with
        | error e => simp only [hrs, hrt] at h; cases h
        | ok t =>
          simp only [hrs, hrt, Except.ok.injEq] at h
          subst h
          by_cases hst : s = t <;>
            simp_all [mem_setAdd, hf, hl] <;> tauto
    · simp only [typeCheck, if_neg hf, if_neg hl, Except.ok.injEq] at h
      subst h
      simp_all

theorem srcStepRest_char (u : Nat) (g : List Nat) (md5 : List Nat → String)
    (src tgt : FilesystemObjectIndex) (acc1 acc' : CompAcc) (m : String)
    (h : compareSrcStepRest u g md5 src tgt acc1 m = Except.ok acc') (n : String) :
    acc'.restricted_src = acc1.restricted_src ∧
    (n ∈ acc'.missing ↔ n ∈ acc1.missing ∨ (n = m ∧ m ∉ tgt.names)) ∧
    (n ∈ acc'.restricted_tgt ↔ n ∈ acc1.restricted_tgt ∨
      (n = m ∧ m ∈ tgt.names ∧ (tgt.obj m).isaccessible u g = false)) ∧
    (n ∈ acc'.changed_type ↔ n ∈ acc1.changed_type ∨
      (n = m ∧ m ∈ tgt.names ∧ (tgt.obj m).isaccessible u g = true ∧
        (src.obj m).type ≠ (tgt.obj m).type)) ∧
    (n ∈ acc'.changed_size ↔ n ∈ acc1.changed_size ∨
      (n = m ∧ m ∈ tgt.names ∧ (tgt.obj m).isaccessible u g = true ∧
        (src.obj m).type = (tgt.obj m).type ∧
        (src.obj m).type = FilesystemObjectType.FILE ∧
        (src.obj m).size ≠ (tgt.obj m).size)) ∧
    (n ∈ acc'.changed_md5 ↔ n ∈ acc1.changed_md5 ∨
      (n = m ∧ m ∈ tgt.names ∧ (tgt.obj m).isaccessible u g = true ∧
        (src.obj m).type = (tgt.obj m).type ∧
        (src.obj m).type = FilesystemObjectType.FILE ∧
        (src.obj m).md5sum md5 ≠ (tgt.obj m).md5sum md5)) ∧
    (n ∈ acc'.changed_link ↔ n ∈ acc1.changed_link ∨
      (n = m ∧ m ∈ tgt.names ∧ (tgt.obj m).isaccessible u g = true ∧
        (src.obj m).type = (tgt.obj m).type ∧
        (src.obj m).type = FilesystemObjectType.SYMLINK ∧
        (src.obj m).raw_symlink_target ≠ (tgt.obj m).raw_symlink_target)) ∧
    (n ∈ acc'.changed_time ↔ n ∈ acc1.changed_time ∨
      (n = m ∧ m ∈ tgt.names ∧ (tgt.obj m).isaccessible u g = true ∧
        (src.obj m).type = (tgt.obj m).type ∧
        (src.obj m).timestamp ≠ (tgt.obj m).timestamp)) ∧
    acc'.extra = acc1.extra := by
  simp only [compareSrcStepRest] at h
  by_cases hmt : m ∈ tgt.names
  case neg =>
    simp [hmt] at h
    subst h
    simp_all [mem_setAdd]
    tauto
  case pos =>
    cases hta : (tgt.obj m).isaccessible u g
    case false =>
      simp [hmt, hta] at h
      subst h
      simp_all [mem_setAdd]
      tauto
    case true =>
      by_cases hty : (src.obj m).type = (tgt.obj m).type
      case neg =>
        simp [hmt, hta, hty] at h
        subst h
        simp_all [mem_setAdd]
        tauto
      case pos =>
        simp [hmt, hta, hty] at h
        cases htc : typeCheck md5 (src.obj m) (tgt.obj m) acc1 m with
        | error e => rw [htc] at h; cases h
        | ok acc2 =>
          rw [htc] at h
          obtain ⟨c1, c2, c3, e1, e2, e3, e4, e5, e6⟩ :=
            typeCheck_char md5 (src.obj m) (tgt.obj m) acc1 acc2 m htc n
          by_cases hts : (src.obj m).timestamp = (tgt.obj m).timestamp <;>
            simp only [hts, ne_eq, not_true_eq_false, not_false_eq_true,
              if_true, if_false, ite_true, ite_false, Except.ok.injEq] at h <;>
          subst h <;>
          simp_all [mem_setAdd] <;>
          tauto

theorem addRS_restricted_src (u : Nat) (g : List Nat)
    (src : FilesystemObjectIndex) (acc : CompAcc) (m n : String) :
    n ∈ (addRestrictedSrc u g src acc m).restricted_src ↔
      n ∈ acc.restricted_src ∨
        (n = m ∧ (src.obj m).isaccessible u g = false) := by
  unfold addRestrictedSrc
  cases hsa : (src.obj m).isaccessible u g <;>
    simp [mem_setAdd] <;> tauto

theorem addRS_missing (u : Nat) (g : List Nat) (src : FilesystemObjectIndex)
    (acc : CompAcc) (m : String) :
    (addRestrictedSrc u g src acc m).missing = acc.missing := by
  unfold addRestrictedSrc; split <;> rfl

theorem addRS_extra (u : Nat) (g : List Nat) (src : FilesystemObjectIndex)
    (acc : CompAcc) (m : String) :
    (addRestrictedSrc u g src acc m).extra = acc.extra := by
  unfold addRestrictedSrc; split <;> rfl

theorem addRS_restricted_tgt (u : Nat) (g : List Nat)
    (src : FilesystemObjectIndex) (acc : CompAcc) (m : String) :
    (addRestrictedSrc u g src acc m).restricted_tgt = acc.restricted_tgt := by
  unfold addRestrictedSrc; split <;> rfl

theorem addRS_changed_type (u : Nat) (g : List Nat)
    (src : FilesystemObjectIndex) (acc : CompAcc) (m : String) :
    (addRestrictedSrc u g src acc m).changed_type = acc.changed_type := by
  unfold addRestrictedSrc; split <;> rfl

theorem addRS_changed_size (u : Nat) (g : List Nat)
    (src : FilesystemObjectIndex) (acc : CompAcc) (m : String) :
    (addRestrictedSrc u g src acc m).changed_size = acc.changed_size := by
  unfold addRestrictedSrc; split <;> rfl

theorem addRS_changed_md5 (u : Nat) (g : List Nat)
    (src : FilesystemObjectIndex) (acc : CompAcc) (m : String) :
    (addRestrictedSrc u g src acc m).changed_md5 = acc.changed_md5 := by
  unfold addRestrictedSrc; split <;> rfl

theorem addRS_changed_link (u : Nat) (g : List Nat)
    (src : FilesystemObjectIndex) (acc : CompAcc) (m : String) :
    (addRestrictedSrc u g src acc m).changed_link = acc.changed_link := by
  unfold addRestrictedSrc; split <;> rfl

theorem addRS_changed_time (u : Nat) (g : List Nat)
    (src : FilesystemObjectIndex) (acc : CompAcc) (m : String) :
    (addRestrictedSrc u g src acc m).changed_time = acc.changed_time := by
  unfold addRestrictedSrc; split <;> rfl

theorem srcStep_char (u : Nat) (g : List Nat) (md5 : List Nat → String)
    (src tgt : FilesystemObjectIndex) (acc acc' : CompAcc) (m : String)
    (h : compareSrcStep u g md5 src tgt acc m = Except.ok acc') (n : String) :
    (n ∈ acc'.restricted_src ↔ n ∈ acc.restricted_src ∨
      (n = m ∧ (src.obj m).isaccessible u g = false)) ∧
    (n ∈ acc'.missing ↔ n ∈ acc.missing ∨ (n = m ∧ m ∉ tgt.names)) ∧
    (n ∈ acc'.restricted_tgt ↔ n ∈ acc.restricted_tgt ∨
      (n = m ∧ m ∈ tgt.names ∧ (tgt.obj m).isaccessible u g = false)) ∧
    (n ∈ acc'.changed_type ↔ n ∈ acc.changed_type ∨
      (n = m ∧ m ∈ tgt.names ∧ (tgt.obj m).isaccessible u g = true ∧
        (src.obj m).type ≠ (tgt.obj m).type)) ∧
    (n ∈ acc'.changed_size ↔ n ∈ acc.changed_size ∨
      (n = m ∧ m ∈ tgt.names ∧ (tgt.obj m).isaccessible u g = true ∧
        (src.obj m).type = (tgt.obj m).type ∧
        (src.obj m).type = FilesystemObjectType.FILE ∧
        (src.obj m).size ≠ (tgt.obj m).size)) ∧
    (n ∈ acc'.changed_md5 ↔ n ∈ acc.changed_md5 ∨
      (n = m ∧ m ∈ tgt.names ∧ (tgt.obj m).isaccessible u g = true ∧
        (src.obj m).type = (tgt.obj m).type ∧
        (src.obj m).type = FilesystemObjectType.FILE ∧
        (src.obj m).md5sum md5 ≠ (tgt.obj m).md5sum md5)) ∧
    (n ∈ acc'.changed_link ↔ n ∈ acc.changed_link ∨
      (n = m ∧ m ∈ tgt.names ∧ (tgt.obj m).isaccessible u g = true ∧
        (src.obj m).type = (tgt.obj m).type ∧
        (src.obj m).type = FilesystemObjectType.SYMLINK ∧
        (src.obj m).raw_symlink_target ≠ (tgt.obj m).raw_symlink_target)) ∧
    (n ∈ acc'.changed_time ↔ n ∈ acc.changed_time ∨
      (n = m ∧ m ∈ tgt.names ∧ (tgt.obj m).isaccessible u g = true ∧
        (src.obj m).type = (tgt.obj m).type ∧
        (src.obj m).timestamp ≠ (tgt.obj m).timestamp)) ∧
    acc'.extra = acc.extra := by
  simp only [compareSrcStep] at h
  obtain ⟨c1, c2, c3, c4, c5, c6, c7, c8, c9⟩ :=
    srcStepRest_char u g md5 src tgt _ acc' m h n
  refine ⟨?_, ?_, ?_, ?_, ?_, ?_, ?_, ?_, ?_⟩
  · rw [c1, addRS_restricted_src]
  · rw [c2, addRS_missing]
  · rw [c3, addRS_restricted_tgt]
  · rw [c4, addRS_changed_type]
  · rw [c5, addRS_changed_size]
  · rw [c6, addRS_changed_md5]
  · rw [c7, addRS_changed_link]
  · rw [c8, addRS_changed_time]
  · rw [c9, addRS_extra]

theorem orFold (A : Prop) (P : String → Prop) (m n : String)
    (rest : List String) :
    ((A ∨ (n = m ∧ P m)) ∨ (n ∈ rest ∧ P n)) ↔
      A ∨ (n ∈ m :: rest ∧ P n) := by
  by_cases hnm : n = m
  · subst hnm
    simp only [List.mem_cons]
    tauto
  · simp only [List.mem_cons, hnm, false_and, false_or, or_false]

theorem srcLoop_char (u : Nat) (g : List Nat) (md5 : List Nat → String)
    (src tgt : FilesystemObjectIndex) (l : List String) (acc acc' : CompAcc)
    (h : srcLoop u g md5 src tgt acc l = Except.ok acc') (n : String) :
    (n ∈ acc'.restricted_src ↔ n ∈ acc.restricted_src ∨
      (n ∈ l ∧ (src.obj n).isaccessible u g = false)) ∧
    (n ∈ acc'.missing ↔ n ∈ acc.missing ∨ (n ∈ l ∧ n ∉ tgt.names)) ∧
    (n ∈ acc'.restricted_tgt ↔ n ∈ acc.restricted_tgt ∨
      (n ∈ l ∧ n ∈ tgt.names ∧ (tgt.obj n).isaccessible u g = false)) ∧
    (n ∈ acc'.changed_type ↔ n ∈ acc.changed_type ∨
      (n ∈ l ∧ n ∈ tgt.names ∧ (tgt.obj n).isaccessible u g = true ∧
        (src.obj n).type ≠ (tgt.obj n).type)) ∧
    (n ∈ acc'.changed_size ↔ n ∈ acc.changed_size ∨
      (n ∈ l ∧ n ∈ tgt.names ∧ (tgt.obj n).isaccessible u g = true ∧
        (src.obj n).type = (tgt.obj n).type ∧
        (src.obj n).type = FilesystemObjectType.FILE ∧
        (src.obj n).size ≠ (tgt.obj n).size)) ∧
    (n ∈ acc'.changed_md5 ↔ n ∈ acc.changed_md5 ∨
      (n ∈ l ∧ n ∈ tgt.names ∧ (tgt.obj n).isaccessible u g = true ∧
        (src.obj n).type = (tgt.obj n).type ∧
        (src.obj n).type = FilesystemObjectType.FILE ∧
        (src.obj n).md5sum md5 ≠ (tgt.obj n).md5sum md5)) ∧
    (n ∈ acc'.changed_link ↔ n ∈ acc.changed_link ∨
      (n ∈ l ∧ n ∈ tgt.names ∧ (tgt.obj n).isaccessible u g = true ∧
        (src.obj n).type = (tgt.obj n).type ∧
        (src.obj n).type = FilesystemObjectType.SYMLINK ∧
        (src.obj n).raw_symlink_target ≠ (tgt.obj n).raw_symlink_target)) ∧
    (n ∈ acc'.changed_time ↔ n ∈ acc.changed_time ∨
      (n ∈ l ∧ n ∈ tgt.names ∧ (tgt.obj n).isaccessible u g = true ∧
        (src.obj n).type = (tgt.obj n).type ∧
        (src.obj n).timestamp ≠ (tgt.obj n).timestamp)) ∧
    acc'.extra = acc.extra := by
  induction l generalizing acc with
  | nil =>
    simp only [srcLoop, Except.ok.injEq] at h
    subst h
    simp
  | cons m rest ih =>
    simp only [srcLoop] at h
    cases hstep : compareSrcStep u g md5 src tgt acc m with
    | error e => rw [hstep] at h; cases h
    | ok acc1 =>
      rw [hstep] at h
      obtain ⟨s1, s2, s3, s4, s5, s6, s7, s8, s9⟩ :=
        srcStep_char u g md5 src tgt acc acc1 m hstep n
      obtain ⟨i1, i2, i3, i4, i5, i6, i7, i8, i9⟩ := ih acc1 h
      refine ⟨?_, ?_, ?_, ?_, ?_, ?_, ?_, ?_, ?_⟩
      · rw [i1, s1]
        exact orFold _ (fun x => (src.obj x).isaccessible u g = false) m n rest
      · rw [i2, s2]
        exact orFold _ (fun x => x ∉ tgt.names) m n rest
      · rw [i3, s3]
        exact orFold _ (fun x => x ∈ tgt.names ∧
          (tgt.obj x).isaccessible u g = false) m n rest
      · rw [i4, s4]
        exact orFold _ (fun x => x ∈ tgt.names ∧
          (tgt.obj x).isaccessible u g = true ∧
          (src.obj x).type ≠ (tgt.obj x).type) m n rest
      · rw [i5, s5]
        exact orFold _ (fun x => x ∈ tgt.names ∧
          (tgt.obj x).isaccessible u g = true ∧
          (src.obj x).type = (tgt.obj x).type ∧
          (src.obj x).type = FilesystemObjectType.FILE ∧
          (src.obj x).size ≠ (tgt.obj x).size) m n rest
      · rw [i6, s6]
        exact orFold _ (fun x => x ∈ tgt.names ∧
          (tgt.obj x).isaccessible u g = true ∧
          (src.obj x).type = (tgt.obj x).type ∧
          (src.obj x).type = FilesystemObjectType.FILE ∧
          (src.obj x).md5sum md5 ≠ (tgt.obj x).md5sum md5) m n rest
      · rw [i7, s7]
        exact orFold _ (fun x => x ∈ tgt.names ∧
          (tgt.obj x).isaccessible u g = true ∧
          (src.obj x).type = (tgt.obj x).type ∧
          (src.obj x).type = FilesystemObjectType.SYMLINK ∧
          (src.obj x).raw_symlink_target ≠ (tgt.obj x).raw_symlink_target) m n rest
      · rw [i8, s8]
        exact orFold _ (fun x => x ∈ tgt.names ∧
          (tgt.obj x).isaccessible u g = true ∧
          (src.obj x).type = (tgt.obj x).type ∧
          (src.obj x).timestamp ≠ (tgt.obj x).timestamp) m n rest
      · rw [i9, s9]

theorem extraStep_char (u : Nat) (g : List Nat)
    (src tgt : FilesystemObjectIndex) (acc : CompAcc) (m n : String) :
    (n ∈ (compareExtraStep u g src tgt acc m).extra ↔
      n ∈ acc.extra ∨ (n = m ∧ m ∉ src.names)) ∧
    (n ∈ (compareExtraStep u g src tgt acc m).restricted_tgt ↔
      n ∈ acc.restricted_tgt ∨
        (n = m ∧ (tgt.obj m).isaccessible u g = false)) ∧
    (compareExtraStep u g src tgt acc m).missing = acc.missing ∧
    (compareExtraStep u g src tgt acc m).restricted_src = acc.restricted_src ∧
    (compareExtraStep u g src tgt acc m).changed_type = acc.changed_type ∧
    (compareExtraStep u g src tgt acc m).changed_size = acc.changed_size ∧
    (compareExtraStep u g src tgt acc m).changed_md5 = acc.changed_md5 ∧
    (compareExtraStep u g src tgt acc m).changed_link = acc.changed_link ∧
    (compareExtraStep u g src tgt acc m).changed_time = acc.changed_time := by
  unfold compareExtraStep
  by_cases hms : m ∈ src.names <;>
    cases hta : (tgt.obj m).isaccessible u g <;>
      refine ⟨?_, ?_, ?_, ?_, ?_, ?_, ?_, ?_, ?_⟩ <;>
        simp [hms, hta, mem_setAdd] <;> tauto

theorem extraLoop_char (u : Nat) (g : List Nat)
    (src tgt : FilesystemObjectIndex) (l : List String) (acc : CompAcc)
    (n : String) :
    (n ∈ (extraLoop u g src tgt acc l).extra ↔
      n ∈ acc.extra ∨ (n ∈ l ∧ n ∉ src.names)) ∧
    (n ∈ (extraLoop u g src tgt acc l).restricted_tgt ↔
      n ∈ acc.restricted_tgt ∨
        (n ∈ l ∧ (tgt.obj n).isaccessible u g = false)) ∧
    (extraLoop u g src tgt acc l).missing = acc.missing ∧
    (extraLoop u g src tgt acc l).restricted_src = acc.restricted_src ∧
    (extraLoop u g src tgt acc l).changed_type = acc.changed_type ∧
    (extraLoop u g src tgt acc l).changed_size = acc.changed_size ∧
    (extraLoop u g src tgt acc l).changed_md5 = acc.changed_md5 ∧
    (extraLoop u g src tgt acc l).changed_link = acc.changed_link ∧
    (extraLoop u g src tgt acc l).changed_time = acc.changed_time := by
  induction l generalizing acc with
  | nil => simp [extraLoop]
  | cons m rest ih =>
    simp only [extraLoop]
    obtain ⟨s1, s2, s3, s4, s5, s6, s7, s8, s9⟩ :=
      extraStep_char u g src tgt acc m n
    obtain ⟨i1, i2, i3, i4, i5, i6, i7, i8, i9⟩ :=
      ih (compareExtraStep u g src tgt acc m)
    refine ⟨?_, ?_, ?_, ?_, ?_, ?_, ?_, ?_, ?_⟩
    · rw [i1, s1]
      exact orFold _ (fun x => x ∉ src.names) m n rest
    · rw [i2, s2]
      exact orFold _ (fun x => (tgt.obj x).isaccessible u g = false) m n rest
    · rw [i3, s3]
    · rw [i4, s4]
    · rw [i5, s5]
    · rw [i6, s6]
    · rw [i7, s7]
    · rw [i8, s8]
    · rw [i9, s9]

theorem compare_char (u : Nat) (g : List Nat) (md5 : List Nat → String)
    (src tgt : FilesystemObjectIndex)
    (res : FilesystemObjectIndexComparison)
    (h : compare u g md5 src tgt = Except.ok res) (n : String) :
    (n ∈ res.missing ↔ n ∈ src.names ∧ n ∉ tgt.names) ∧
    (n ∈ res.extra ↔ n ∈ tgt.names ∧ n ∉ src.names) ∧
    (n ∈ res.restricted_source ↔
      n ∈ src.names ∧ (src.obj n).isaccessible u g = false) ∧
    (n ∈ res.restricted_target ↔
      n ∈ tgt.names ∧ (tgt.obj n).isaccessible u g = false) ∧
    (n ∈ res.changed_type ↔ n ∈ src.names ∧ n ∈ tgt.names ∧
      (tgt.obj n).isaccessible u g = true ∧
      (src.obj n).type ≠ (tgt.obj n).type) ∧
    (n ∈ res.changed_size ↔ n ∈ src.names ∧ n ∈ tgt.names ∧
      (tgt.obj n).isaccessible u g = true ∧
      (src.obj n).type = (tgt.obj n).type ∧
      (src.obj n).type = FilesystemObjectType.FILE ∧
      (src.obj n).size ≠ (tgt.obj n).size) ∧
    (n ∈ res.changed_md5 ↔ n ∈ src.names ∧ n ∈ tgt.names ∧
      (tgt.obj n).isaccessible u g = true ∧
      (src.obj n).type = (tgt.obj n).type ∧
      (src.obj n).type = FilesystemObjectType.FILE ∧
      (src.obj n).md5sum md5 ≠ (tgt.obj n).md5sum md5) ∧
    (n ∈ res.changed_link ↔ n ∈ src.names ∧ n ∈ tgt.names ∧
      (tgt.obj n).isaccessible u g = true ∧
      (src.obj n).type = (tgt.obj n).type ∧
      (src.obj n).type = FilesystemObjectType.SYMLINK ∧
      (src.obj n).raw_symlink_target ≠ (tgt.obj n).raw_symlink_target) ∧
    (n ∈ res.changed_time ↔ n ∈ src.names ∧ n ∈ tgt.names ∧
      (tgt.obj n).isaccessible u g = true ∧
      (src.obj n).type = (tgt.obj n).type ∧
      (src.obj n).timestamp ≠ (tgt.obj n).timestamp) := by
  simp only [compare] at h
  cases hsl : srcLoop u g md5 src tgt emptyAcc src.names with
  | error e => rw [hsl] at h; cases h
  | ok acc0 =>
    rw [hsl] at h
    simp only [Except.ok.injEq] at h
    subst h
    obtain ⟨l1, l2, l3, l4, l5, l6, l7, l8, l9⟩ :=
      srcLoop_char u g md5 src tgt src.names emptyAcc acc0 hsl n
    obtain ⟨x1, x2, x3, x4, x5, x6, x7, x8, x9⟩ :=
      extraLoop_char u g src tgt tgt.names acc0 n
    have hempty : ∀ s, s ∈ ([] : List String) ↔ False := by simp
    refine ⟨?_, ?_, ?_, ?_, ?_, ?_, ?_, ?_, ?_⟩
    · show n ∈ ssort (extraLoop u g src tgt acc0 tgt.names).missing ↔ _
      rw [mem_ssort, x3, l2]
      simp [emptyAcc]
    · show n ∈ ssort (extraLoop u g src tgt acc0 tgt.names).extra ↔ _
      rw [mem_ssort, x1, l9]
      simp only [emptyAcc]
      simp
    · show n ∈ ssort (extraLoop u g src tgt acc0 tgt.names).restricted_src ↔ _
      rw [mem_ssort, x4, l1]
      simp [emptyAcc]
    · show n ∈ ssort (extraLoop u g src tgt acc0 tgt.names).restricted_tgt ↔ _
      rw [mem_ssort, x2, l3]
      simp only [emptyAcc]
      simp
    · show n ∈ ssort (extraLoop u g src tgt acc0 tgt.names).changed_type ↔ _
      rw [mem_ssort, x5, l4]
      simp [emptyAcc]
    · show n ∈ ssort (extraLoop u g src tgt acc0 tgt.names).changed_size ↔ _
      rw [mem_ssort, x6, l5]
      simp [emptyAcc]
    · show n ∈ ssort (extraLoop u g src tgt acc0 tgt.names).changed_md5 ↔ _
      rw [mem_ssort, x7, l6]
      simp [emptyAcc]
    · show n ∈ ssort (extraLoop u g src tgt acc0 tgt.names).changed_link ↔ _
      rw [mem_ssort, x8, l7]
      simp [emptyAcc]
    · show n ∈ ssort (extraLoop u g src tgt acc0 tgt.names).changed_time ↔ _
      rw [mem_ssort, x9, l8]
      simp [emptyAcc]

/-! ### Claim C1 -/

/-- C1: for every pair of indexes and every path name present in both,
`compare` categorizes as follows: if the target object is inaccessible the
name goes to `restricted_target` and no change category fires; otherwise if
the two objects' types differ the name goes to `changed_type` and no further
checks run; otherwise, for File-typed objects the size comparison
(`changed_size`) and the content-hash comparison (`changed_md5`) fire
independently of each other, and the timestamp comparison (`changed_time`)
fires exactly when the timestamps differ, regardless of which other
categories fired. -/
theorem C1_compare_categorization (u : Nat) (g : List Nat)
    (md5 : List Nat → String) (src tgt : FilesystemObjectIndex)
    (res : FilesystemObjectIndexComparison) (n : String)
    (hres : compare u g md5 src tgt = Except.ok res)
    (hs : n ∈ src.names) (ht : n ∈ tgt.names) :
    ((tgt.obj n).isaccessible u g = false →
      n ∈ res.restricted_target ∧ n ∉ res.changed_type ∧
      n ∉ res.changed_size ∧ n ∉ res.changed_md5 ∧
      n ∉ res.changed_link ∧ n ∉ res.changed_time) ∧
    ((tgt.obj n).isaccessible u g = true →
      (src.obj n).type ≠ (tgt.obj n).type →
      n ∈ res.changed_type ∧ n ∉ res.changed_size ∧ n ∉ res.changed_md5 ∧
      n ∉ res.changed_link ∧ n ∉ res.changed_time) ∧
    ((tgt.obj n).isaccessible u g = true →
      (src.obj n).type = (tgt.obj n).type →
      (src.obj n).type = FilesystemObjectType.FILE →
      ((n ∈ res.changed_size ↔ (src.obj n).size ≠ (tgt.obj n).size) ∧
        (n ∈ res.changed_md5 ↔
          (src.obj n).md5sum md5 ≠ (tgt.obj n).md5sum md5))) ∧
    ((tgt.obj n).isaccessible u g = true →
      (src.obj n).type = (tgt.obj n).type →
      (n ∈ res.changed_time ↔
        (src.obj n).timestamp ≠ (tgt.obj n).timestamp)) := by
  obtain ⟨m1, m2, m3, m4, m5, m6, m7, m8, m9⟩ :=
    compare_char u g md5 src tgt res hres n
  refine ⟨?_, ?_, ?_, ?_⟩
  · intro hna
    refine ⟨?_, ?_, ?_, ?_, ?_, ?_⟩
    · exact m4.mpr ⟨ht, hna⟩
    · simp [m5, hna]
    · simp [m6, hna]
    · simp [m7, hna]
    · simp [m8, hna]
    · simp [m9, hna]
  · intro hta hty
    refine ⟨?_, ?_, ?_, ?_, ?_⟩
    · exact m5.mpr ⟨hs, ht, hta, hty⟩
    · simp [m6, hty]
    · simp [m7, hty]
    · simp [m8, hty]
    · simp [m9, hty]
  · intro hta hty hf
    have hft : (tgt.obj n).type = FilesystemObjectType.FILE := by
      rw [← hty]; exact hf
    constructor
    · rw [m6]
      simp [hs, ht, hta, hty, hf, hft]
    · rw [m7]
      simp [hs, ht, hta, hty, hf, hft]
  · intro hta hty
    rw [m9]
    simp [hs, ht, hta, hty]

/-- Witness for C1 at a concrete pair: one file whose size, content and
timestamp all changed. -/
theorem C1_compare_categorization_witness :
    compare 1000 [] mdW idxW1 idxW2 = Except.ok resW12 ∧
    "a" ∈ idxW1.names ∧ "a" ∈ idxW2.names ∧
    (idxW2.obj "a").isaccessible 1000 [] = true ∧
    (idxW1.obj "a").type = (idxW2.obj "a").type ∧
    (idxW1.obj "a").type = FilesystemObjectType.FILE ∧
    ((("a" ∈ resW12.changed_size ↔
        (idxW1.obj "a").size ≠ (idxW2.obj "a").size) ∧
      ("a" ∈ resW12.changed_md5 ↔
        (idxW1.obj "a").md5sum mdW ≠ (idxW2.obj "a").md5sum mdW)) ∧
     ("a" ∈ resW12.changed_time ↔
        (idxW1.obj "a").timestamp ≠ (idxW2.obj "a").timestamp)) := by
  have h := C1_compare_categorization 1000 [] mdW idxW1 idxW2 resW12 "a"
    rfl (by decide) (by decide)
  exact ⟨rfl, by decide, by decide, by decide, by decide, by decide,
    ⟨h.2.2.1 (by decide) (by decide) (by decide),
      h.2.2.2 (by decide) (by decide)⟩⟩

/-! ### Claim C2 -/

/-- C2: `compare` adds every name present in the target but absent from the
source to `extra` (and only those), and adds every inaccessible target name
(whether or not present in the source) to `restricted_target`; consequently
a target-only inaccessible object appears in both `extra` and
`restricted_target`. -/
theorem C2_extra_and_restricted_target (u : Nat) (g : List Nat)
    (md5 : List Nat → String) (src tgt : FilesystemObjectIndex)
    (res : FilesystemObjectIndexComparison)
    (hres : compare u g md5 src tgt = Except.ok res) :
    (∀ n, n ∈ res.extra ↔ n ∈ tgt.names ∧ n ∉ src.names) ∧
    (∀ n, n ∈ tgt.names → (tgt.obj n).isaccessible u g = false →
      n ∈ res.restricted_target) ∧
    (∀ n, n ∈ tgt.names → n ∉ src.names →
      (tgt.obj n).isaccessible u g = false →
      n ∈ res.extra ∧ n ∈ res.restricted_target) := by
  refine ⟨?_, ?_, ?_⟩
  · intro n
    exact (compare_char u g md5 src tgt res hres n).2.1
  · intro n h1 h2
    exact (compare_char u g md5 src tgt res hres n).2.2.2.1.mpr ⟨h1, h2⟩
  · intro n h1 h2 h3
    obtain ⟨m1, m2, m3, m4, m5, m6, m7, m8, m9⟩ :=
      compare_char u g md5 src tgt res hres n
    exact ⟨m2.mpr ⟨h1, h2⟩, m4.mpr ⟨h1, h3⟩⟩

/-- Witness for C2 at a concrete pair: target has an extra, inaccessible
object `b`, which lands in both `extra` and `restricted_target`. -/
theorem C2_extra_and_restricted_target_witness :
    compare 1000 [] mdW idxW1 idxW3 = Except.ok resW13 ∧
    "b" ∈ idxW3.names ∧ "b" ∉ idxW1.names ∧
    (idxW3.obj "b").isaccessible 1000 [] = false ∧
    ("b" ∈ resW13.extra ∧ "b" ∈ resW13.restricted_target) := by
  have h := C2_extra_and_restricted_target 1000 [] mdW idxW1 idxW3 resW13 rfl
  exact ⟨rfl, by decide, by decide, by decide,
    h.2.2 "b" (by decide) (by decide) (by decide)⟩

/-! ### Claim C3 -/

theorem lexists_of_type_ne_missing (o : FilesystemObject)
    (h : o.type ≠ FilesystemObjectType.MISSING) : o.lexists = true := by
  cases hl : o.lexists
  · exfalso
    apply h
    unfold FilesystemObject.type
    rw [hl]
    rfl
  · rfl

theorem typeCheck_self (md5 : List Nat → String) (o : FilesystemObject)
    (acc : CompAcc) (m : String)
    (hfile : o.type = FilesystemObjectType.FILE → o.openRead.isSome)
    (hlink : o.type = FilesystemObjectType.SYMLINK → o.readlink0.isSome) :
    typeCheck md5 o o acc m = Except.ok acc := by
  unfold typeCheck
  by_cases hf : o.type = FilesystemObjectType.FILE
  · have hex : o.lexists = true := by
      apply lexists_of_type_ne_missing
      rw [hf]
      intro hc
      cases hc
    cases hor : o.openRead with
    | none =>
      exfalso
      have := hfile hf
      rw [hor] at this
      cases this
    | some bs =>
      simp [hf, FilesystemObject.md5sum, hex, hor]
  · by_cases hl : o.type = FilesystemObjectType.SYMLINK
    · have hex : o.lexists = true := by
        apply lexists_of_type_ne_missing
        rw [hl]
        intro hc
        cases hc
      cases hrl : o.readlink0 with
      | none =>
        exfalso
        have := hlink hl
        rw [hrl] at this
        cases this
      | some t =>
        simp [hf, hl, FilesystemObject.raw_symlink_target, hex, hrl]
    · simp [hf, hl]

theorem compareSrcStep_self (u : Nat) (g : List Nat)
    (md5 : List Nat → String) (idx : FilesystemObjectIndex) (acc : CompAcc)
    (m : String) (hm : m ∈ idx.names)
    (hacc : (idx.obj m).isaccessible u g = true)
    (hfile : (idx.obj m).type = FilesystemObjectType.FILE →
      (idx.obj m).openRead.isSome)
    (hlink : (idx.obj m).type = FilesystemObjectType.SYMLINK →
      (idx.obj m).readlink0.isSome) :
    compareSrcStep u g md5 idx idx acc m = Except.ok acc := by
  unfold compareSrcStep addRestrictedSrc compareSrcStepRest
  rw [hacc]
  simp only [Bool.not_true, Bool.false_eq_true, if_false, if_pos hm, ne_eq,
    not_true_eq_false, ite_false]
  rw [typeCheck_self md5 (idx.obj m) acc m hfile hlink]
  rw [hacc]
  simp

theorem srcLoop_self (u : Nat) (g : List Nat) (md5 : List Nat → String)
    (idx : FilesystemObjectIndex) (acc : CompAcc) (l : List String)
    (hsub : ∀ m ∈ l, m ∈ idx.names)
    (hacc : ∀ m ∈ l, (idx.obj m).isaccessible u g = true)
    (hfile : ∀ m ∈ l, (idx.obj m).type = FilesystemObjectType.FILE →
      (idx.obj m).openRead.isSome)
    (hlink : ∀ m ∈ l, (idx.obj m).type = FilesystemObjectType.SYMLINK →
      (idx.obj m).readlink0.isSome) :
    srcLoop u g md5 idx idx acc l = Except.ok acc := by
  induction l with
  | nil => rfl
  | cons m rest ih =>
    simp only [srcLoop]
    rw [compareSrcStep_self u g md5 idx acc m (hsub m (by simp))
      (hacc m (by simp)) (hfile m (by simp)) (hlink m (by simp))]
    exact ih (fun x hx => hsub x (by simp [hx]))
      (fun x hx => hacc x (by simp [hx]))
      (fun x hx => hfile x (by simp [hx]))
      (fun x hx => hlink x (by simp [hx]))

theorem extraLoop_self (u : Nat) (g : List Nat)
    (idx : FilesystemObjectIndex) (acc : CompAcc) (l : List String)
    (hsub : ∀ m ∈ l, m ∈ idx.names)
    (hacc : ∀ m ∈ l, (idx.obj m).isaccessible u g = true) :
    extraLoop u g idx idx acc l = acc := by
  induction l with
  | nil => rfl
  | cons m rest ih =>
    have hm : m ∈ idx.names := hsub m (by simp)
    have ha : (idx.obj m).isaccessible u g = true := hacc m (by simp)
    simp only [extraLoop, compareExtraStep]
    rw [ha]
    simp only [hm, not_true_eq_false, if_false, Bool.not_true,
      Bool.false_eq_true, ite_false]
    exact ih (fun x hx => hsub x (by simp [hx]))
      (fun x hx => hacc x (by simp [hx]))

/-- C3 (amended): comparing an index against an unmodified copy of itself
yields all nine categories empty, provided every object in the index is
accessible (and its file contents / link targets are readable, so the
comparison itself succeeds).  Without the accessibility proviso the claim
fails: see the counterexample. -/
theorem C3_self_compare_amended (u : Nat) (g : List Nat)
    (md5 : List Nat → String) (idx : FilesystemObjectIndex)
    (hacc : ∀ n ∈ idx.names, (idx.obj n).isaccessible u g = true)
    (hfile : ∀ n ∈ idx.names, (idx.obj n).type = FilesystemObjectType.FILE →
      (idx.obj n).openRead.isSome)
    (hlink : ∀ n ∈ idx.names,
      (idx.obj n).type = FilesystemObjectType.SYMLINK →
      (idx.obj n).readlink0.isSome) :
    compare u g md5 idx idx =
      Except.ok ⟨[], [], [], [], [], [], [], [], []⟩ := by
  have h1 := srcLoop_self u g md5 idx emptyAcc idx.names (fun m hm => hm)
    hacc hfile hlink
  have h2 := extraLoop_self u g idx emptyAcc idx.names (fun m hm => hm) hacc
  unfold compare
  rw [h1]
  simp [h2, ssort]

/-- C3 counterexample: comparing an index holding one inaccessible object
(mode `0o000`, not owned by the caller) against an unmodified copy of
itself yields non-empty `restricted_source` and `restricted_target`, so not
every category is empty. -/
theorem C3_self_compare_counterexample :
    compare 1000 [] mdW idxC3 idxC3 =
      Except.ok ⟨[], [], ["f"], ["f"], [], [], [], [], []⟩ ∧
    (FilesystemObjectIndexComparison.restricted_source
      ⟨[], [], ["f"], ["f"], [], [], [], [], []⟩ ≠ []) := by
  constructor
  · rfl
  · intro hc
    cases hc

/-- Witness for the amended C3 at a concrete accessible index. -/
theorem C3_self_compare_amended_witness :
    (∀ n ∈ idxW1.names, (idxW1.obj n).isaccessible 1000 [] = true) ∧
    compare 1000 [] mdW idxW1 idxW1 =
      Except.ok ⟨[], [], [], [], [], [], [], [], []⟩ := by
  refine ⟨by decide, ?_⟩
  exact C3_self_compare_amended 1000 [] mdW idxW1 (by decide) (by decide)
    (by decide)

/-! ### Claim C4 -/

/-- C4 (amended): `md5sum` is `None` only for missing objects.  For an
existing object the path is opened (following symlinks) and hashed: if the
open succeeds the digest of whatever was read is returned — also for
symlinks, whose dereferenced target content is hashed — and if the open
fails (as it always does for a directory, `IsADirectoryError`) the property
raises instead of returning `None`.  There is no special-casing of
non-files. -/
theorem C4_md5sum_amended (md5 : List Nat → String) (o : FilesystemObject) :
    (o.lexists = false → o.md5sum md5 = Except.ok none) ∧
    (∀ bs, o.lexists = true → o.openRead = some bs →
      o.md5sum md5 = Except.ok (some (md5 bs))) ∧
    (o.lexists = true → o.openRead = none →
      o.md5sum md5 = Except.error ()) := by
  refine ⟨?_, ?_, ?_⟩
  · intro h
    simp [FilesystemObject.md5sum, h]
  · intro bs h1 h2
    simp [FilesystemObject.md5sum, h1, h2]
  · intro h1 h2
    simp [FilesystemObject.md5sum, h1, h2]

/-- C4 counterexample: an existing directory (for which `open` raises
`IsADirectoryError`) makes `md5sum` raise rather than return `None`. -/
theorem C4_md5sum_counterexample :
    objC4.lexists = true ∧
    objC4.type = FilesystemObjectType.DIRECTORY ∧
    objC4.md5sum mdW = Except.error () := by
  refine ⟨rfl, rfl, rfl⟩

/-- Witness for the amended C4: a missing object hashes to `None`, an
existing readable file to the digest of its bytes, and an existing
unreadable object raises. -/
theorem C4_md5sum_amended_witness :
    (objC4miss.lexists = false ∧ objC4miss.md5sum mdW = Except.ok none) ∧
    (objW1.lexists = true ∧ objW1.openRead = some [1, 2] ∧
      objW1.md5sum mdW = Except.ok (some (mdW [1, 2]))) ∧
    (objC4.lexists = true ∧ objC4.openRead = none ∧
      objC4.md5sum mdW = Except.error ()) := by
  refine ⟨⟨rfl, (C4_md5sum_amended mdW objC4miss).1 rfl⟩,
    ⟨rfl, rfl, (C4_md5sum_amended mdW objW1).2.1 [1, 2] rfl rfl⟩,
    ⟨rfl, rfl, (C4_md5sum_amended mdW objC4).2.2 rfl rfl⟩⟩

/-! ### Claim C6 -/

/-- C6: `isaccessible` follows POSIX precedence: a nonexistent object is
inaccessible; else if the process uid equals the owner uid the result is
exactly the owner-read bit (the owner check wins even when group/other bits
are more permissive); else if the process's group set contains the gid, the
result is exactly the group-read bit; else exactly the other-read bit. -/
theorem C6_isaccessible_posix (u : Nat) (g : List Nat)
    (o : FilesystemObject) :
    (o.lexists = false → o.isaccessible u g = false) ∧
    (∀ s, o.st = some s → s.uid = u →
      o.isaccessible u g = (s.mode &&& S_IRUSR != 0)) ∧
    (∀ s, o.st = some s → s.uid ≠ u → s.gid ∈ g →
      o.isaccessible u g = (s.mode &&& S_IRGRP != 0)) ∧
    (∀ s, o.st = some s → s.uid ≠ u → s.gid ∉ g →
      o.isaccessible u g = (s.mode &&& S_IROTH != 0)) := by
  refine ⟨?_, ?_, ?_, ?_⟩
  · intro h
    unfold FilesystemObject.isaccessible
    cases hst : o.st with
    | none => rfl
    | some s =>
      exfalso
      unfold FilesystemObject.lexists at h
      rw [hst] at h
      cases h
  · intro s hst hu
    unfold FilesystemObject.isaccessible
    rw [hst]
    simp [hu]
  · intro s hst hu hg
    unfold FilesystemObject.isaccessible
    rw [hst]
    simp [hu, hg]
  · intro s hst hu hg
    unfold FilesystemObject.isaccessible
    rw [hst]
    simp [hu, hg]

/-- Witness for C6: mode `0400` accessible to the owner; mode `0040`
inaccessible to the owner even though the group bit is set and the owner is
in the owning group; mode `0004` accessible to an unrelated caller via the
other bit. -/
theorem C6_isaccessible_posix_witness :
    (objC6a.st = some ⟨0, 1, 1000, 1000, 0o100400⟩ ∧
      objC6a.isaccessible 1000 [1000] = true) ∧
    (objC6b.st = some ⟨0, 1, 1000, 1000, 0o100040⟩ ∧
      objC6b.isaccessible 1000 [1000] = false) ∧
    (objC6c.st = some ⟨0, 1, 7, 7, 0o100004⟩ ∧
      objC6c.isaccessible 1000 [1000] = true) := by
  refine ⟨⟨rfl, ?_⟩, ⟨rfl, ?_⟩, ⟨rfl, ?_⟩⟩
  · rw [(C6_isaccessible_posix 1000 [1000] objC6a).2.1
      ⟨0, 1, 1000, 1000, 0o100400⟩ rfl rfl]
    decide
  · rw [(C6_isaccessible_posix 1000 [1000] objC6b).2.1
      ⟨0, 1, 1000, 1000, 0o100040⟩ rfl rfl]
    decide
  · rw [(C6_isaccessible_posix 1000 [1000] objC6c).2.2.2
      ⟨0, 1, 7, 7, 0o100004⟩ rfl (by decide) (by decide)]
    decide

/-! ### Claim C7 -/

/-- C7: the derived `type` is `MISSING` if the object does not exist; else
`FILE` for a non-symlink regular file; else `DIRECTORY` for a non-symlink
directory; else `SYMLINK` for a symlink — and a symlink is never classified
as `FILE` or `DIRECTORY` — else `UNKNOWN`. -/
theorem C7_type_classification (o : FilesystemObject) :
    (o.lexists = false → o.type = FilesystemObjectType.MISSING) ∧
    (∀ s, o.st = some s → S_ISLNK s.mode = false → S_ISREG s.mode = true →
      o.type = FilesystemObjectType.FILE) ∧
    (∀ s, o.st = some s → S_ISLNK s.mode = false → S_ISDIR s.mode = true →
      o.type = FilesystemObjectType.DIRECTORY) ∧
    (∀ s, o.st = some s → S_ISLNK s.mode = true →
      o.type = FilesystemObjectType.SYMLINK ∧
      o.type ≠ FilesystemObjectType.FILE ∧
      o.type ≠ FilesystemObjectType.DIRECTORY) ∧
    (∀ s, o.st = some s → S_ISLNK s.mode = false → S_ISREG s.mode = false →
      S_ISDIR s.mode = false → o.type = FilesystemObjectType.UNKNOWN) := by
  refine ⟨?_, ?_, ?_, ?_, ?_⟩
  · intro h
    unfold FilesystemObject.type
    rw [h]
    rfl
  · intro s hst hlnk hreg
    have hex : o.lexists = true := by
      unfold FilesystemObject.lexists
      rw [hst]
      rfl
    unfold FilesystemObject.type FilesystemObject.isfile
      FilesystemObject.islink
    rw [hst, hex]
    simp [hlnk, hreg]
  · intro s hst hlnk hdir
    have hex : o.lexists = true := by
      unfold FilesystemObject.lexists
      rw [hst]
      rfl
    have hreg : S_ISREG s.mode = false := by
      unfold S_ISREG
      unfold S_ISDIR at hdir
      simp only [beq_iff_eq] at hdir
      simp [hdir, S_IFREG, S_IFDIR]
    unfold FilesystemObject.type FilesystemObject.isfile
      FilesystemObject.isdir FilesystemObject.islink
    rw [hst, hex]
    simp [hlnk, hreg, hdir]
  · intro s hst hlnk
    have hex : o.lexists = true := by
      unfold FilesystemObject.lexists
      rw [hst]
      rfl
    have htype : o.type = FilesystemObjectType.SYMLINK := by
      unfold FilesystemObject.type FilesystemObject.isfile
        FilesystemObject.isdir FilesystemObject.islink
      rw [hst, hex]
      simp [hlnk]
    refine ⟨htype, ?_, ?_⟩
    · rw [htype]
      intro hc
      cases hc
    · rw [htype]
      intro hc
      cases hc
  · intro s hst hlnk hreg hdir
    have hex : o.lexists = true := by
      unfold FilesystemObject.lexists
      rw [hst]
      rfl
    unfold FilesystemObject.type FilesystemObject.isfile
      FilesystemObject.isdir FilesystemObject.islink
    rw [hst, hex]
    simp [hlnk, hreg, hdir]

/-- Witness for C7 at concrete objects: a regular file, a directory, a
symlink (classified `SYMLINK`, not `FILE`/`DIRECTORY`, even though its
target is a readable file), and a missing object. -/
theorem C7_type_classification_witness :
    (objW1.st = some ⟨100, 4, 1000, 1000, 0o100644⟩ ∧
      objW1.type = FilesystemObjectType.FILE) ∧
    (objC4.st = some ⟨10, 4096, 1000, 1000, 0o40755⟩ ∧
      objC4.type = FilesystemObjectType.DIRECTORY) ∧
    (objC7lnk.st = some ⟨0, 1, 1000, 1000, 0o120777⟩ ∧
      objC7lnk.type = FilesystemObjectType.SYMLINK ∧
      objC7lnk.type ≠ FilesystemObjectType.FILE ∧
      objC7lnk.type ≠ FilesystemObjectType.DIRECTORY) ∧
    (objC4miss.lexists = false ∧
      objC4miss.type = FilesystemObjectType.MISSING) := by
  refine ⟨⟨rfl, ?_⟩, ⟨rfl, ?_⟩, ?_, ⟨rfl, ?_⟩⟩
  · exact (C7_type_classification objW1).2.1 ⟨100, 4, 1000, 1000, 0o100644⟩
      rfl (by decide) (by decide)
  · exact (C7_type_classification objC4).2.2.1 ⟨10, 4096, 1000, 1000, 0o40755⟩
      rfl (by decide) (by decide)
  · exact ⟨rfl, (C7_type_classification objC7lnk).2.2.2.1
      ⟨0, 1, 1000, 1000, 0o120777⟩ rfl (by decide)⟩
  · exact (C7_type_classification objC4miss).1 rfl

/-! ### Claim C5 -/

theorem checkAccLoop_eq_filter (u : Nat) (g : List Nat)
    (indx : FilesystemObjectIndex) (l : List String) :
    checkAccLoop u g indx l =
      l.filter (fun n => !((indx.obj n).isaccessible u g)) := by
  induction l with
  | nil => rfl
  | cons m rest ih =>
    simp only [checkAccLoop, List.filter]
    cases ha : (indx.obj m).isaccessible u g <;> simp [ha, ih]

/-- C5 (amended): `check_accessibility` returns exactly the names whose
`isaccessible` is false, in the index's name order (the code performs no
sort, so the result is lexicographically sorted only when the index's name
list happens to be). -/
theorem C5_check_accessibility_amended (u : Nat) (g : List Nat)
    (indx : FilesystemObjectIndex) :
    check_accessibility u g indx =
      indx.names.filter (fun n => !((indx.obj n).isaccessible u g)) ∧
    (∀ n, n ∈ check_accessibility u g indx ↔
      n ∈ indx.names ∧ (indx.obj n).isaccessible u g = false) := by
  constructor
  · exact checkAccLoop_eq_filter u g indx indx.names
  · intro n
    rw [check_accessibility, checkAccLoop_eq_filter, List.mem_filter]
    simp

/-- C5 counterexample: an index whose (traversal-ordered) name list is
`["b", "a"]`, both inaccessible; `check_accessibility` returns them in that
order, which is not lexicographically sorted. -/
theorem C5_check_accessibility_counterexample :
    check_accessibility 1000 [] idxC5 = ["b", "a"] ∧
    ssort (check_accessibility 1000 [] idxC5) = ["a", "b"] ∧
    check_accessibility 1000 [] idxC5 ≠
      ssort (check_accessibility 1000 [] idxC5) := by
  refine ⟨rfl, rfl, by decide⟩

/-! ### Claim C9 -/

/-- C9: `find` returns the empty list immediately when none of the positive
filters (`exts`, `users`, `size`, `only_hidden`) is set, regardless of the
index contents and of the subtractive `nosymlinks`/`nocompressed` flags. -/
theorem C9_find_empty_guard (resolveUser : Nat → Option String)
    (indx : FilesystemObjectIndex) (nosymlinks nocompressed : Bool) :
    find resolveUser indx none none none false nosymlinks nocompressed
      = [] := rfl

/-! ### Claim C10 -/

theorem iteFilterSub (b : Bool) (q : String → Bool) (l : List String) :
    (if b then l.filter q else l).Sublist l := by
  cases b
  · simp
  · simp [List.filter_sublist]

/-- C10: the list returned by `find` contains each index name at most once
(given the index invariant that names are unique): even when several comma
separated extensions match the same object, the inner loop appends a name at
most once, and every later stage only filters. -/
theorem C10_find_no_duplicates (resolveUser : Nat → Option String)
    (indx : FilesystemObjectIndex) (exts users : Option String)
    (size : Option Int) (only_hidden nosymlinks nocompressed : Bool)
    (n : String) (h : indx.names.Nodup) :
    (find resolveUser indx exts users size only_hidden nosymlinks
      nocompressed).count n ≤ 1 := by
  unfold find
  split
  · simp
  · rw [count_ssort]
    have hbase : ∀ l : List String, l.Sublist indx.names → l.count n ≤ 1 :=
      fun l hs => le_trans (hs.count_le n)
        (List.nodup_iff_count_le_one.mp h n)
    apply hbase
    cases exts <;> cases users <;> cases size <;>
      repeat (first
        | exact List.Sublist.refl _
        | refine List.Sublist.trans (iteFilterSub _ _ _) ?_
        | refine List.Sublist.trans (List.filter_sublist _) ?_)

/-- Witness for C10: the extension filter `"txt,txt"` matches the object's
type-extension twice, yet the name appears at most once. -/
theorem C10_find_no_duplicates_witness :
    idxC10.names.Nodup ∧
    (find ruW idxC10 (some "txt,txt") none none false false
      false).count "a.txt" ≤ 1 :=
  ⟨by decide, C10_find_no_duplicates ruW idxC10 (some "txt,txt") none none
    false false false "a.txt" (by decide)⟩

/-! ### Claim C8: split/join machinery -/

theorem splitCh_ne_nil (sep : Char) (l : List Char) : splitCh sep l ≠ [] := by
  cases l with
  | nil => simp [splitCh]
  | cons c cs =>
    unfold splitCh
    split
    · simp
    · cases h : splitCh sep cs <;> simp [h]

theorem splitCh_cons_sep (sep : Char) (cs : List Char) :
    splitCh sep (sep :: cs) = [] :: splitCh sep cs := by
  simp only [splitCh]
  simp

theorem splitCh_cons_ne (sep c : Char) (cs : List Char) (hc : ¬(c = sep))
    (g : List Char) (gs : List (List Char))
    (hcs : splitCh sep cs = g :: gs) :
    splitCh sep (c :: cs) = (c :: g) :: gs := by
  simp only [splitCh]
  rw [if_neg hc, hcs]

theorem splitCh_no_sep (sep : Char) (ys : List Char) (h : sep ∉ ys) :
    splitCh sep ys = [ys] := by
  induction ys with
  | nil => rfl
  | cons c cs ih =>
    have hc : ¬(c = sep) := by
      intro e
      exact h (by simp [e])
    have hcs : sep ∉ cs := fun hm => h (by simp [hm])
    rw [splitCh_cons_ne sep c cs hc cs [] (ih hcs)]

theorem splitCh_cons_group (sep : Char) (g ys : List Char) (h : sep ∉ g) :
    splitCh sep (g ++ sep :: ys) = g :: splitCh sep ys := by
  induction g with
  | nil =>
    rw [List.nil_append]
    exact splitCh_cons_sep sep ys
  | cons c cs ih =>
    have hc : ¬(c = sep) := by
      intro e
      exact h (by simp [e])
    have hcs : sep ∉ cs := fun hm => h (by simp [hm])
    rw [List.cons_append,
      splitCh_cons_ne sep c (cs ++ sep :: ys) hc cs (splitCh sep ys)
        (ih hcs)]

theorem splitCh_append_sep (sep : Char) (xs ys : List Char) (h : sep ∉ ys) :
    splitCh sep (xs ++ sep :: ys) = splitCh sep xs ++ [ys] := by
  induction xs with
  | nil =>
    rw [List.nil_append, splitCh_cons_sep sep ys, splitCh_no_sep sep ys h]
    rfl
  | cons c cs ih =>
    by_cases hc : c = sep
    · subst hc
      rw [List.cons_append, splitCh_cons_sep c (cs ++ c :: ys), ih,
        splitCh_cons_sep c cs]
      rfl
    · cases hcs : splitCh sep cs with
      | nil => exact absurd hcs (splitCh_ne_nil sep cs)
      | cons g gs =>
        have hL : splitCh sep (cs ++ sep :: ys) = g :: (gs ++ [ys]) := by
          rw [ih, hcs]
          rfl
        rw [List.cons_append,
          splitCh_cons_ne sep c (cs ++ sep :: ys) hc g (gs ++ [ys]) hL,
          splitCh_cons_ne sep c cs hc g gs hcs]
        rfl

theorem getLastD_indep (S : List (List Char)) (hS : S ≠ [])
    (d1 d2 : List Char) : S.getLastD d1 = S.getLastD d2 := by
  cases S with
  | nil => exact absurd rfl hS
  | cons b t => rw [List.getLastD_cons, List.getLastD_cons]

theorem consStep (a : List Char) (S : List (List Char)) (hS : S ≠ [])
    (ys : List Char) :
    (a :: S).dropLast ++ [(a :: S).getLastD [] ++ ys] =
      a :: (S.dropLast ++ [S.getLastD [] ++ ys]) := by
  rw [List.dropLast_cons_of_ne_nil hS, List.getLastD_cons,
    getLastD_indep S hS a []]
  simp

theorem splitCh_append_no_sep (sep : Char) (xs ys : List Char)
    (h : sep ∉ ys) :
    splitCh sep (xs ++ ys) =
      (splitCh sep xs).dropLast ++ [(splitCh sep xs).getLastD [] ++ ys] := by
  induction xs with
  | nil =>
    rw [List.nil_append, splitCh_no_sep sep ys h]
    rfl
  | cons c cs ih =>
    by_cases hc : c = sep
    · subst hc
      rw [List.cons_append, splitCh_cons_sep c (cs ++ ys), ih,
        splitCh_cons_sep c cs]
      exact (consStep [] (splitCh c cs) (splitCh_ne_nil c cs) ys).symm
    · cases hcs : splitCh sep cs with
      | nil => exact absurd hcs (splitCh_ne_nil sep cs)
      | cons g gs =>
        cases gs with
        | nil =>
          have hL : splitCh sep (cs ++ ys) = [g ++ ys] := by
            rw [ih, hcs]
            rfl
          rw [List.cons_append,
            splitCh_cons_ne sep c (cs ++ ys) hc (g ++ ys) [] hL,
            splitCh_cons_ne sep c cs hc g [] hcs]
          rfl
        | cons g2 t =>
          have hL : splitCh sep (cs ++ ys) =
              g :: ((g2 :: t).dropLast ++ [(g2 :: t).getLastD [] ++ ys]) := by
            rw [ih, hcs]
            exact consStep g (g2 :: t) (by simp) ys
          rw [List.cons_append,
            splitCh_cons_ne sep c (cs ++ ys) hc g
              ((g2 :: t).dropLast ++ [(g2 :: t).getLastD [] ++ ys]) hL,
            splitCh_cons_ne sep c cs hc g (g2 :: t) hcs,
            consStep (c :: g) (g2 :: t) (by simp) ys]

theorem mem_splitCh_not_sep (sep : Char) (l : List Char) :
    ∀ gr ∈ splitCh sep l, sep ∉ gr := by
  induction l with
  | nil =>
    intro gr hgr
    simp [splitCh] at hgr
    subst hgr
    simp
  | cons c cs ih =>
    intro gr hgr
    by_cases hc : c = sep
    · subst hc
      rw [splitCh_cons_sep c cs] at hgr
      rcases List.mem_cons.mp hgr with h1 | h2
      · subst h1
        simp
      · exact ih gr h2
    · cases hcs : splitCh sep cs with
      | nil => exact absurd hcs (splitCh_ne_nil sep cs)
      | cons g gs =>
        rw [splitCh_cons_ne sep c cs hc g gs hcs] at hgr
        rcases List.mem_cons.mp hgr with h1 | h2
        · subst h1
          intro hm
          rcases List.mem_cons.mp hm with e1 | e2
          · exact hc e1.symm
          · exact ih g (by rw [hcs]; simp) e2
        · exact ih gr (by rw [hcs]; simp [h2])

theorem splitCh_joinDots (gs : List (List Char))
    (h : ∀ gr ∈ gs, '.' ∉ gr) (hne : gs ≠ []) :
    splitCh '.' (joinDots gs) = gs := by
  induction gs with
  | nil => exact absurd rfl hne
  | cons g rest ih =>
    cases rest with
    | nil =>
      simp only [joinDots]
      exact splitCh_no_sep '.' g (h g (by simp))
    | cons g2 t =>
      simp only [joinDots]
      rw [splitCh_cons_group '.' g (joinDots (g2 :: t)) (h g (by simp))]
      rw [ih (fun x hx => h x (by simp [hx])) (by simp)]

theorem tail_append_single (l : List (List Char)) (a : List Char)
    (h : l ≠ []) : (l ++ [a]).tail = l.tail ++ [a] := by
  cases l with
  | nil => exact absurd rfl h
  | cons x xs => rfl

theorem getD_append_single (xs : List (List Char)) (a : List Char)
    (h : xs ≠ []) :
    (xs ++ [a]).getD (xs.length - 1) [] = xs.getLastD [] := by
  induction xs with
  | nil => exact absurd rfl h
  | cons x ys ih =>
    cases ys with
    | nil => rfl
    | cons y t =>
      have ih2 := ih (by simp)
      simp only [List.length_cons, Nat.add_sub_cancel] at ih2
      simp only [List.length_cons, Nat.add_sub_cancel, List.cons_append,
        List.getD_cons_succ, List.getLastD_cons]
      simp only [List.cons_append, List.getLastD_cons] at ih2
      exact ih2

theorem type_extensionL_append (p suf : List Char) (hdot : '.' ∉ suf)
    (hslash : '/' ∉ suf)
    (hcomp : suf = ['g', 'z'] ∨ suf = ['b', 'z', '2'])
    (hnc : iscompressedL p = false) :
    type_extensionL (p ++ '.' :: suf) = type_extensionL p := by
  have hbase : basenameL (p ++ '.' :: suf) = basenameL p ++ '.' :: suf := by
    unfold basenameL
    rw [splitCh_append_no_sep '/' p ('.' :: suf) (by simp [hslash])]
    simp
  have hsplitf : splitCh '.' (basenameL (p ++ '.' :: suf)) =
      splitCh '.' (basenameL p) ++ [suf] := by
    rw [hbase]
    exact splitCh_append_sep '.' (basenameL p) suf hdot
  have hext : extensionL (p ++ '.' :: suf) =
      joinDots ((splitCh '.' (basenameL p)).tail ++ [suf]) := by
    unfold extensionL
    rw [hsplitf,
      tail_append_single _ _ (splitCh_ne_nil '.' (basenameL p))]
  have hcompf : iscompressedL (p ++ '.' :: suf) = true := by
    unfold iscompressedL
    rw [splitCh_append_sep '.' p suf hdot]
    rcases hcomp with h | h <;> subst h <;> simp
  have hgroups : ∀ gr ∈ (splitCh '.' (basenameL p)).tail ++ [suf],
      '.' ∉ gr := by
    intro gr hgr
    rcases List.mem_append.mp hgr with h1 | h2
    · exact mem_splitCh_not_sep '.' (basenameL p) gr
        (List.mem_of_mem_tail h1)
    · simp at h2
      subst h2
      exact hdot
  unfold type_extensionL
  simp only [hcompf, hnc, Bool.false_eq_true, if_false, if_true]
  rw [hext, splitCh_joinDots _ hgroups (by simp)]
  cases hR : (splitCh '.' (basenameL p)).tail with
  | nil =>
    simp only [hR, List.nil_append, List.length_cons, List.length_nil]
    rw [if_neg (by omega)]
    unfold extensionL
    rw [hR]
    simp [joinDots, splitCh]
  | cons r rs =>
    have hgr : ∀ gr ∈ r :: rs, '.' ∉ gr := by
      intro gr hg
      exact hgroups gr (by rw [hR]; exact List.mem_append_left _ hg)
    have h2 : 2 ≤ ((r :: rs) ++ [suf]).length := by
      simp
    rw [if_pos h2]
    have hlen : ((r :: rs) ++ [suf]).length - 2 = (r :: rs).length - 1 := by
      simp
    rw [hlen, getD_append_single (r :: rs) suf (by simp)]
    unfold extensionL
    rw [hR, splitCh_joinDots (r :: rs) hgr (by simp)]

/-- C8 (amended): for every path whose name with the compression suffix
removed is not itself compressed, appending `.gz` or `.bz2` leaves
`type_extension` unchanged; the particular values of the claim hold
(`"test.txt.gz" ↦ "txt"`, `"test.txt" ↦ "txt"`, `"test.gz" ↦ ""`).  For a
doubly-compressed name the law fails: see the counterexample. -/
theorem C8_type_extension_law (p : List Char)
    (hnc : iscompressedL p = false) :
    type_extensionL (p ++ ['.', 'g', 'z']) = type_extensionL p ∧
    type_extensionL (p ++ ['.', 'b', 'z', '2']) = type_extensionL p ∧
    typeExtensionS "test.txt.gz" = "txt" ∧
    typeExtensionS "test.txt" = "txt" ∧
    typeExtensionS "test.gz" = "" := by
  refine ⟨?_, ?_, by decide, by decide, by decide⟩
  · exact type_extensionL_append p ['g', 'z'] (by decide) (by decide)
      (Or.inl rfl) hnc
  · exact type_extensionL_append p ['b', 'z', '2'] (by decide) (by decide)
      (Or.inr rfl) hnc

/-- C8 counterexample: `"a.gz.gz"` ends in `.gz`, but its type-extension is
`"gz"` while the type-extension of `"a.gz"` (the name with that compression
suffix removed) is `""`. -/
theorem C8_type_extension_counterexample :
    "a.gz.gz".toList = "a.gz".toList ++ ['.', 'g', 'z'] ∧
    typeExtensionS "a.gz.gz" = "gz" ∧
    typeExtensionS "a.gz" = "" ∧
    typeExtensionS "a.gz.gz" ≠ typeExtensionS "a.gz" := by
  refine ⟨by decide, by decide, by decide, by decide⟩

/-- Witness for the amended C8 at `"test.txt"` (not compressed). -/
theorem C8_type_extension_law_witness :
    iscompressedL "test.txt".toList = false ∧
    type_extensionL ("test.txt".toList ++ ['.', 'g', 'z']) =
      type_extensionL "test.txt".toList :=
  ⟨by decide, (C8_type_extension_law "test.txt".toList (by decide)).1⟩

end Stoker
